import Mathlib

/-!
Verification of the RFM95_CH341SPI repository: a shallow embedding of the
CH341 USB-SPI bridge driver (`src/CH341SPI.cpp`) and the RFM95 LoRa radio
driver (`src/RFM95.cpp`), together with theorems settling the spec claims.

Machine integers are modelled as `Nat` (with `% 256` where `uint8_t`
truncation matters).  The USB bus and the radio hardware are modelled as
oracles: a function from the index of the successive `libusb_bulk_transfer`
call (resp. the poll iteration) to its outcome.
-/

namespace CH341

/-- Embeds `CH341SPI::swapBits`: for `i` in `0..7`, if bit `i` of `byte` is
set, set bit `7-i` of the result. -/
def swapBits (byte : Nat) : Nat :=
  (List.range 8).foldl
    (fun result i => if byte / 2 ^ i % 2 = 1 then result ||| 2 ^ (7 - i) else result) 0

/-- Outcome of one `libusb_bulk_transfer` call: `none` means the call returned
a nonzero error code, `some b` means success, with `b` the byte delivered when
the call was on the read endpoint (ignored for write-endpoint calls).
A bus behaviour is a map from the call index (within one `transfer`) to its
outcome. -/
abbrev Bus := Nat → Option Nat

/-- Embeds the write phase of `CH341SPI::transfer`: for each byte of
`write_data`, one bulk write of the SPI-stream command (call `idx`) and one
bulk read of the echoed byte (call `idx+1`), the echo being discarded.
Returns `some` of the next call index, or `none` if a bulk call failed
(the C++ code does `return result` with `result` still empty there). -/
def writePhase (bus : Bus) : List Nat → Nat → Option Nat
  | [], idx => some idx
  | _ :: rest, idx =>
    match bus idx with
    | none => none
    | some _ =>
      match bus (idx + 1) with
      | none => none
      | some _ => writePhase bus rest (idx + 2)

/-- Embeds the read phase of `CH341SPI::transfer`: for each of the `n`
requested bytes, one bulk write of a dummy `0xFF` SPI-stream command and one
bulk read whose byte is appended to `acc` (bit-swapped when `lsb_first`).
Returns the accumulated bytes, whether the phase completed, and the next call
index.  A failure mid-phase keeps the bytes pushed so far, exactly as the C++
`return result` does. -/
def readPhase (bus : Bus) (lsb_first : Bool) :
    Nat → Nat → List Nat → List Nat × Bool × Nat
  | 0, idx, acc => (acc, true, idx)
  | n + 1, idx, acc =>
    match bus idx with
    | none => (acc, false, idx)
    | some _ =>
      match bus (idx + 1) with
      | none => (acc, false, idx + 1)
      | some b =>
        readPhase bus lsb_first n (idx + 2)
          (acc ++ [if lsb_first then swapBits b else b])

/-- Embeds `CH341SPI::transfer(write_data, read_length)` over a bus
behaviour.  Call 0 is the chip-select-low command, then the write phase, the
read phase, and finally the chip-select-high command.  The second component
is a ghost observation: `true` iff every bulk-transfer step of the exchange
succeeded (the C++ code itself only returns the byte vector).  Mirrors the
control flow of the source: a CS-low or write-phase failure returns the
empty vector, a read-phase failure returns the partial vector collected so
far, and a CS-high failure is only logged, the complete vector being
returned anyway. -/
def transferAux (deviceOpen : Bool) (lsb_first : Bool) (bus : Bus)
    (write_data : List Nat) (read_length : Nat) : List Nat × Bool :=
  if deviceOpen = false then ([], false)
  else
    match bus 0 with
    | none => ([], false)
    | some _ =>
      match writePhase bus write_data 1 with
      | none => ([], false)
      | some idx =>
        match readPhase bus lsb_first read_length idx [] with
        | (res, false, _) => (res, false)
        | (res, true, idx2) =>
          match bus idx2 with
          | none => (res, false)
          | some _ => (res, true)

/-- The byte vector `CH341SPI::transfer` returns. -/
def transfer (deviceOpen : Bool) (lsb_first : Bool) (bus : Bus)
    (write_data : List Nat) (read_length : Nat) : List Nat :=
  (transferAux deviceOpen lsb_first bus write_data read_length).1

/-- Helper: the read phase never collects more than the requested number of
bytes, and collects exactly that many when it completes. -/
theorem readPhase_length (bus : Bus) (lsb : Bool) :
    ∀ (n idx : Nat) (acc : List Nat),
      ((readPhase bus lsb n idx acc).1).length ≤ acc.length + n
      ∧ ((readPhase bus lsb n idx acc).2.1 = true →
          ((readPhase bus lsb n idx acc).1).length = acc.length + n) := by
  intro n
  induction n with
  | zero => intro idx acc; exact ⟨Nat.le_refl _, fun _ => rfl⟩
  | succ n ih =>
    intro idx acc
    simp only [readPhase]
    cases bus idx with
    | none => exact ⟨Nat.le_add_right _ _, fun h => by simp at h⟩
    | some _ =>
      dsimp only
      cases bus (idx + 1) with
      | none => exact ⟨Nat.le_add_right _ _, fun h => by simp at h⟩
      | some b =>
        dsimp only
        have h := ih (idx + 2) (acc ++ [if lsb then swapBits b else b])
        simp only [List.length_append, List.length_singleton] at h
        exact ⟨by omega, fun hc => by have := h.2 hc; omega⟩

/-- C1 (counterexample): with the device open, a chip-select-low, a
one-byte write phase and a one-byte read phase all succeeding but the final
chip-select-high bulk transfer failing (call index 5), `transfer` has a
failed bulk-transfer step in the exchange yet returns the non-empty byte
vector `[0x12]`, contradicting the claim that any bulk-transfer failure
yields an empty result. -/
theorem transfer_failure_nonempty_cx :
    (transferAux true false (fun i => if i = 5 then none else some 0x12)
      [0x42] 1).2 = false
    ∧ transfer true false (fun i => if i = 5 then none else some 0x12)
      [0x42] 1 = [0x12] := by
  exact ⟨rfl, rfl⟩

/-- C1 (amended): a failure before or during the write phase yields an empty
result; the result never exceeds `read_length` bytes; and a fully successful
exchange returns exactly `read_length` bytes.  (A failure during the read
phase or at chip-select-high can however return a non-empty partial result,
as the counterexample shows.) -/
theorem transfer_partial_semantics :
    ∀ (dev lsb : Bool) (bus : Bus) (ws : List Nat) (n : Nat),
      ((dev = false ∨ bus 0 = none ∨ writePhase bus ws 1 = none) →
        transfer dev lsb bus ws n = [])
      ∧ (transfer dev lsb bus ws n).length ≤ n
      ∧ ((transferAux dev lsb bus ws n).2 = true →
          (transfer dev lsb bus ws n).length = n) := by
  intro dev lsb bus ws n
  unfold transfer transferAux
  cases dev with
  | false => exact ⟨fun _ => rfl, by simp, fun h => by simp at h⟩
  | true =>
    simp only [Bool.true_eq_false, if_false]
    cases h0 : bus 0 with
    | none => exact ⟨fun _ => rfl, by simp, fun h => by simp at h⟩
    | some b0 =>
      dsimp only
      cases hw : writePhase bus ws 1 with
      | none => exact ⟨fun _ => rfl, by simp, fun h => by simp at h⟩
      | some idx =>
        dsimp only
        have hlen := readPhase_length bus lsb n idx []
        rcases hr : readPhase bus lsb n idx [] with ⟨res, ok, idx2⟩
        rw [hr] at hlen
        simp only [List.length_nil, Nat.zero_add] at hlen
        cases ok with
        | false =>
          dsimp only
          exact ⟨fun h => by simp at h, hlen.1, fun h => by simp at h⟩
        | true =>
          dsimp only
          cases h2 : bus idx2 with
          | none =>
            exact ⟨fun h => by simp at h, hlen.1, fun h => by simp at h⟩
          | some _ =>
            exact ⟨fun h => by simp at h, hlen.1, fun _ => hlen.2 rfl⟩

/-- Witness for the C1 amended theorem at a concrete input: with the device
not open, the transfer returns the empty vector. -/
theorem transfer_partial_semantics_witness :
    transfer false false (fun _ => none) [] 0 = [] :=
  (transfer_partial_semantics false false (fun _ => none) [] 0).1 (Or.inl rfl)

namespace Session

/-- The `CH341SPI` object state relevant to `isActive`: the libusb device
handle and the `is_open` member. -/
structure State where
  device : Option Unit
  is_open : Bool

/-- Embeds the `CH341SPI` constructor: its initialiser list sets
`device(nullptr)` (with the other members), but `is_open` appears neither in
the initialiser list nor in the constructor body, so it keeps whatever
indeterminate value `g` its storage happened to hold. -/
def construct (g : Bool) : State := { device := none, is_open := g }

/-- Embeds `CH341SPI::open`: `ok` abstracts whether device enumeration, the
index-range check, `libusb_open`, `libusb_set_configuration`,
`libusb_claim_interface`, `configStream` and `enablePins` all succeeded.  On
success the device handle is stored; on every failure path it ends up null.
No path of the source function assigns `is_open`. -/
def openDev (ok : Bool) (s : State) : Bool × State :=
  if ok then (true, { s with device := some () })
  else (false, { s with device := none })

/-- Embeds `CH341SPI::close`: releases and nulls the device handle.
`is_open` is not assigned. -/
def closeDev (s : State) : State := { s with device := none }

/-- Embeds `CH341SPI::isActive`, which returns the `is_open` member. -/
def isActive (s : State) : Bool := s.is_open

/-- C5 (code bug): `isActive` returns the `is_open` member, but `is_open` is
never assigned anywhere in the class — not by the constructor, not by
`open`, not by `close` — so `isActive` forever reports the indeterminate
initial value `g`.  In particular, constructing with `g = false` and
performing a fully successful `open` leaves `isActive` returning `false`,
contradicting both the claim and the field's own documentation
("Flag to indicate whether the device is open and active"). -/
theorem isActive_never_updated :
    ∀ (g ok : Bool) (s : State),
      isActive (construct g) = g
      ∧ isActive (openDev ok s).2 = isActive s
      ∧ isActive (closeDev s) = isActive s
      ∧ (openDev true (construct false)).1 = true
      ∧ isActive (openDev true (construct false)).2 = false := by
  intro g ok s
  refine ⟨rfl, ?_, rfl, rfl, rfl⟩
  cases ok <;> rfl

end Session

end CH341

namespace RFM95

/-- Register addresses and constants from `RFM95.hpp`. -/
def REG_FIFO : Nat := 0x00

def REG_OP_MODE : Nat := 0x01

def REG_FRF_MSB : Nat := 0x06

def REG_FRF_MID : Nat := 0x07

def REG_FRF_LSB : Nat := 0x08

def REG_PA_CONFIG : Nat := 0x09

def REG_LNA : Nat := 0x0C

def REG_FIFO_ADDR_PTR : Nat := 0x0D

def REG_FIFO_TX_BASE_ADDR : Nat := 0x0E

def REG_FIFO_RX_BASE_ADDR : Nat := 0x0F

def REG_FIFO_RX_CURRENT_ADDR : Nat := 0x10

def REG_IRQ_FLAGS_MASK : Nat := 0x11

def REG_IRQ_FLAGS : Nat := 0x12

def REG_RX_NB_BYTES : Nat := 0x13

def REG_MODEM_CONFIG_1 : Nat := 0x1D

def REG_MODEM_CONFIG_2 : Nat := 0x1E

def REG_PAYLOAD_LENGTH : Nat := 0x22

def REG_MODEM_CONFIG_3 : Nat := 0x26

def REG_INVERTIQ : Nat := 0x33

def REG_INVERTIQ2 : Nat := 0x3B

def REG_DIO_MAPPING_1 : Nat := 0x40

def REG_DIO_MAPPING_2 : Nat := 0x41

def REG_PA_DAC : Nat := 0x4D

def MODE_SLEEP : Nat := 0x00

def MODE_STDBY : Nat := 0x01

def MODE_TX : Nat := 0x03

def MODE_RX_CONTINUOUS : Nat := 0x05

def PA_BOOST : Nat := 0x80

def IRQ_TX_DONE_MASK : Nat := 0x08

def IRQ_PAYLOAD_CRC_ERROR_MASK : Nat := 0x20

def IRQ_RX_DONE_MASK : Nat := 0x40

namespace Reg

/-- A register file: ideal transport in which register writes read back
unchanged (the assumption stated by the round-trip claims). -/
abbrev Regs := Nat → Nat

/-- Embeds `RFM95::writeRegister` over the ideal register-file transport:
the `uint8_t` value is stored (truncated to a byte) at the register
address. -/
def writeRegister (regs : Regs) (address value : Nat) : Regs :=
  fun a => if a = address then value % 256 else regs a

/-- Embeds `RFM95::readRegister` over the ideal register-file transport: the
stored byte is returned. -/
def readRegister (regs : Regs) (address : Nat) : Nat :=
  regs address % 256

theorem read_write_same (regs : Regs) (a v : Nat) :
    readRegister (writeRegister regs a v) a = v % 256 := by
  simp [readRegister, writeRegister]

theorem read_write_other (regs : Regs) (a b v : Nat) (h : b ≠ a) :
    readRegister (writeRegister regs a v) b = readRegister regs b := by
  simp [readRegister, writeRegister, h]

/-- Embeds `RFM95::setTxPower(level, use_pa_boost)`: with boost the level is
clamped to `[2,20]` and `PA_BOOST | (level - 2)` is written; without boost
the level is clamped to `[0,15]` and written directly. -/
def setTxPower (regs : Regs) (level : Int) (use_pa_boost : Bool) : Regs :=
  if use_pa_boost then
    writeRegister regs REG_PA_CONFIG (PA_BOOST ||| (max 2 (min level 20) - 2).toNat)
  else
    writeRegister regs REG_PA_CONFIG (max 0 (min level 15)).toNat

/-- Embeds `RFM95::getTxPower`: reads `REG_PA_CONFIG`; if the boost bit is
set returns `(pa & 0x0F) + 2`, otherwise `pa & 0x0F`. -/
def getTxPower (regs : Regs) : Int :=
  if readRegister regs REG_PA_CONFIG &&& PA_BOOST ≠ 0 then
    ((readRegister regs REG_PA_CONFIG &&& 0x0F : Nat) : Int) + 2
  else
    ((readRegister regs REG_PA_CONFIG &&& 0x0F : Nat) : Int)

theorem boost_byte_facts :
    ∀ v : Nat, v ≤ 18 →
      (0x80 ||| v) % 256 &&& 0x80 ≠ 0
      ∧ (0x80 ||| v) % 256 &&& 0x0F = (if v ≤ 15 then v else v - 16) := by
  decide

theorem plain_byte_facts :
    ∀ v : Nat, v ≤ 15 → v % 256 &&& 0x80 = 0 ∧ v % 256 &&& 0x0F = v := by
  decide

/-- C4 (counterexample): after `setTxPower(20, use_pa_boost=true)` the claim
predicts `getTxPower() = 20` (20 clamped to `[2,20]`), but the code encodes
`0x80 | 18 = 0x92`, whose low nibble is 2, so `getTxPower()` returns 4. -/
theorem txPower_boost_overflow_cx :
    getTxPower (setTxPower (fun _ => 0) 20 true) = 4
    ∧ getTxPower (setTxPower (fun _ => 0) 20 true) ≠ 20 := by
  constructor <;> decide

/-- C4 (amended): after `setTxPower(level, true)` the getter returns the
clamped level only when the clamp `max 2 (min level 20)` is at most 17;
for clamped levels 18, 19 and 20 the encoding `level - 2` overflows the
4-bit low nibble of `REG_PA_CONFIG` and the getter returns `clamp - 16`
(that is 2, 3 and 4).  Without boost the getter returns the level clamped
to `[0,15]`, as the claim states. -/
theorem txPower_roundtrip_amended :
    ∀ (regs : Regs) (level : Int),
      getTxPower (setTxPower regs level true) =
        (if max 2 (min level 20) ≤ 17 then max 2 (min level 20)
         else max 2 (min level 20) - 16)
      ∧ getTxPower (setTxPower regs level false) = max 0 (min level 15) := by
  intro regs level
  constructor
  · have hL1 : (2 : Int) ≤ max 2 (min level 20) := le_max_left _ _
    have hL2 : max 2 (min level 20) ≤ 20 :=
      max_le (by norm_num) (min_le_right _ _)
    have hv : (max 2 (min level 20) - 2).toNat ≤ 18 := by omega
    have hfacts := boost_byte_facts _ hv
    have hvL : ((max 2 (min level 20) - 2).toNat : Int) =
        max 2 (min level 20) - 2 := by omega
    simp only [setTxPower, getTxPower, PA_BOOST, if_true, read_write_same]
    rw [if_pos hfacts.1, hfacts.2]
    split
    · split
      · omega
      · omega
    · split
      · omega
      · omega
  · have hL1 : (0 : Int) ≤ max 0 (min level 15) := le_max_left _ _
    have hL2 : max 0 (min level 15) ≤ 15 :=
      max_le (by norm_num) (min_le_right _ _)
    have hv : (max 0 (min level 15)).toNat ≤ 15 := by omega
    have hfacts := plain_byte_facts _ hv
    simp only [setTxPower, getTxPower, PA_BOOST, Bool.false_eq_true, if_false,
      read_write_same]
    rw [if_neg (by simp [hfacts.1]), hfacts.2]
    omega

/-- Bitwise helper: `a ||| b = a + b` when the low `k` bits of `a` are clear
and `b` fits in `k` bits. -/
theorem lor_eq_add :
    ∀ (k a b : Nat), a % 2 ^ k = 0 → b < 2 ^ k → a ||| b = a + b := by
  intro k
  induction k with
  | zero =>
    intro a b _ hb
    have : b = 0 := by omega
    subst this
    simp
  | succ k ih =>
    intro a b ha hb
    obtain ⟨q, hq⟩ := Nat.dvd_of_mod_eq_zero ha
    have hsplit : a = 2 * (2 ^ k * q) := by rw [hq]; ring
    have ha2 : a % 2 = 0 := by rw [hsplit]; exact Nat.mul_mod_right 2 _
    have hadiv : a / 2 = 2 ^ k * q := by
      rw [hsplit]; exact Nat.mul_div_cancel_left _ (by norm_num)
    have hdvd : (a / 2) % 2 ^ k = 0 := by rw [hadiv]; exact Nat.mul_mod_right _ _
    have hb2 : b / 2 < 2 ^ k := by
      rw [Nat.div_lt_iff_lt_mul (by norm_num)]
      calc b < 2 ^ (k + 1) := hb
        _ = 2 ^ k * 2 := by ring
    have hih := ih (a / 2) (b / 2) hdvd hb2
    have hdiv2 : (a ||| b) / 2 = a / 2 ||| b / 2 := Nat.or_div_two
    have hmod2 : (a ||| b) % 2 = b % 2 := by
      rcases Nat.mod_two_eq_zero_or_one b with hbm | hbm
      · rcases Nat.mod_two_eq_zero_or_one (a ||| b) with ho | ho
        · omega
        · rcases Nat.or_mod_two_eq_one.mp ho with h | h <;> omega
      · have : (a ||| b) % 2 = 1 := Nat.or_mod_two_eq_one.mpr (Or.inr hbm)
        omega
    have hrec : a ||| b = 2 * ((a ||| b) / 2) + (a ||| b) % 2 := by omega
    rw [hrec, hdiv2, hih, hmod2]
    omega

/-- Bitwise helper: a value below `2^24` split into its three bytes and
recombined MSB-to-LSB the way `RFM95::getFrequency` does is unchanged. -/
theorem recombine24 (n : Nat) (h : n < 2 ^ 24) :
    ((((n >>> 16) &&& 255) <<< 16) ||| (((n >>> 8) &&& 255) <<< 8)) |||
      (n &&& 255) = n := by
  have h255 : ∀ m : Nat, m &&& 255 = m % 256 := by
    intro m
    have := Nat.and_pow_two_sub_one_eq_mod m 8
    norm_num at this
    exact this
  rw [h255, h255, h255, Nat.shiftRight_eq_div_pow, Nat.shiftRight_eq_div_pow,
    Nat.shiftLeft_eq, Nat.shiftLeft_eq]
  norm_num
  have e1 : n / 65536 % 256 * 65536 ||| n / 256 % 256 * 256 =
      n / 65536 % 256 * 65536 + n / 256 % 256 * 256 := by
    apply lor_eq_add 16
    · have : (65536 : Nat) = 2 ^ 16 := by norm_num
      rw [this, Nat.mul_mod_left]
    · have : n / 256 % 256 < 256 := Nat.mod_lt _ (by norm_num)
      calc n / 256 % 256 * 256 < 256 * 256 := by omega
        _ ≤ 2 ^ 16 := by norm_num
  rw [e1]
  rw [lor_eq_add 8 _ _ ?_ ?_]
  · omega
  · have hd : (256 : Nat) ∣ n / 65536 % 256 * 65536 + n / 256 % 256 * 256 := by
      apply Nat.dvd_add
      · exact Dvd.dvd.mul_left ⟨256, by norm_num⟩ _
      · exact Dvd.dvd.mul_left dvd_rfl _
    have h256 : (2 : Nat) ^ 8 = 256 := by norm_num
    rw [h256]
    omega
  · have h256 : (2 : Nat) ^ 8 = 256 := by norm_num
    rw [h256]
    exact Nat.mod_lt _ (by norm_num)

/-- Embeds `RFM95::setFrequency(freq_mhz)`.  The C++ computes
`static_cast<uint32_t>((freq_mhz * 524288.0) / 32.0)` — all the floating
point operations are exact (a float scaled by powers of two), so over `ℚ`
the cast is truncation toward zero, `Int.floor` composed with `toNat` for
nonnegative inputs, reduced modulo `2^32`.  The three bytes of the word are
written MSB-to-LSB into the `FRF` registers. -/
def setFrequency (regs : Regs) (freq_mhz : ℚ) : Regs :=
  let frf : Nat := (⌊freq_mhz * 524288 / 32⌋).toNat % 2 ^ 32
  writeRegister
    (writeRegister
      (writeRegister regs REG_FRF_MSB ((frf >>> 16) &&& 0xFF))
      REG_FRF_MID ((frf >>> 8) &&& 0xFF))
    REG_FRF_LSB (frf &&& 0xFF)

/-- Embeds `RFM95::getFrequency`: reads the three `FRF` registers, combines
them `(msb << 16) | (mid << 8) | lsb`, and computes `frf * 32.0 / 524288.0`
(again exact in floating point for 24-bit words, hence modelled in `ℚ`). -/
def getFrequency (regs : Regs) : ℚ :=
  (((((readRegister regs REG_FRF_MSB) <<< 16) |||
      ((readRegister regs REG_FRF_MID) <<< 8)) |||
      readRegister regs REG_FRF_LSB : Nat) : ℚ) * 32 / 524288

/-- Modelled from the spec's words, for comparison with the code: the claim
states the 24-bit frequency word is `round(frequency_MHz * 2^19 / 32)`. -/
def specRoundFrf (freq_mhz : ℚ) : Int := round (freq_mhz * 524288 / 32)

/-- C6 (counterexample): at 137.0000458 MHz (the float `137 + 3·2^-16`,
inside the tunable range) the code truncates `f * 2^19 / 32 = 2244608.75`
to the word 2244608, while the claim's formula `round(f * 2^19 / 32)`
gives 2244609: the encoding is a truncation, not a rounding. -/
theorem frequency_truncates_not_rounds_cx :
    ((((readRegister (setFrequency (fun _ => 0) (137 + 3 / 65536)) REG_FRF_MSB <<< 16) |||
       (readRegister (setFrequency (fun _ => 0) (137 + 3 / 65536)) REG_FRF_MID <<< 8)) |||
       readRegister (setFrequency (fun _ => 0) (137 + 3 / 65536)) REG_FRF_LSB) : Int)
      = 2244608
    ∧ specRoundFrf (137 + 3 / 65536) = 2244609 := by
  constructor
  · norm_num [setFrequency, readRegister, writeRegister, REG_FRF_MSB,
      REG_FRF_MID, REG_FRF_LSB]
    decide
  · norm_num [specRoundFrf, round_eq]

/-- C6 (amended): the word written is the truncation
`⌊frequency_MHz * 2^19 / 32⌋`, split MSB-to-LSB across the three registers;
decode is the inverse computation, and across the tunable range the decoded
frequency never exceeds the requested one and differs from it by less than
one synthesizer step `32 / 2^19` MHz. -/
theorem frequency_roundtrip_amended :
    ∀ (regs : Regs) (f : ℚ), 0 ≤ f → f < 1024 →
      getFrequency (setFrequency regs f) =
        ((⌊f * 524288 / 32⌋ : ℚ)) * 32 / 524288
      ∧ 0 ≤ f - getFrequency (setFrequency regs f)
      ∧ f - getFrequency (setFrequency regs f) < 32 / 524288 := by
  intro regs f hf0 hf1
  have hx0 : (0 : ℚ) ≤ f * 524288 / 32 := by positivity
  have hfl0 : (0 : Int) ≤ ⌊f * 524288 / 32⌋ := Int.floor_nonneg.mpr hx0
  have hxlt : f * 524288 / 32 < 2 ^ 24 := by
    rw [div_lt_iff₀ (by norm_num)]
    nlinarith
  have hfllt : ⌊f * 524288 / 32⌋ < 2 ^ 24 := by
    have := Int.floor_le (f * 524288 / 32)
    have h2 : ((2 : Int) ^ 24 : ℚ) = (2 : ℚ) ^ 24 := by norm_num
    by_contra hc
    push_neg at hc
    have : ((2 : Int) ^ 24 : ℚ) ≤ (⌊f * 524288 / 32⌋ : ℚ) := by
      exact_mod_cast hc
    linarith
  set frfI : Int := ⌊f * 524288 / 32⌋ with hfrfI
  have htn : (frfI.toNat : Int) = frfI := Int.toNat_of_nonneg hfl0
  have htlt : frfI.toNat < 2 ^ 24 := by omega
  have hmod : frfI.toNat % 2 ^ 32 = frfI.toNat :=
    Nat.mod_eq_of_lt (by omega)
  -- the three register reads
  have hb : ∀ m : Nat, m &&& 255 < 256 := by
    intro m
    have : m &&& 255 ≤ 255 := Nat.and_le_right
    omega
  have hmsb : readRegister (setFrequency regs f) REG_FRF_MSB =
      (frfI.toNat >>> 16) &&& 255 := by
    simp only [setFrequency, ← hfrfI, hmod]
    rw [read_write_other _ _ _ _ (by norm_num [REG_FRF_MSB, REG_FRF_LSB])]
    rw [read_write_other _ _ _ _ (by norm_num [REG_FRF_MSB, REG_FRF_MID])]
    rw [read_write_same]
    exact Nat.mod_eq_of_lt (hb _)
  have hmid : readRegister (setFrequency regs f) REG_FRF_MID =
      (frfI.toNat >>> 8) &&& 255 := by
    simp only [setFrequency, ← hfrfI, hmod]
    rw [read_write_other _ _ _ _ (by norm_num [REG_FRF_MID, REG_FRF_LSB])]
    rw [read_write_same]
    exact Nat.mod_eq_of_lt (hb _)
  have hlsb : readRegister (setFrequency regs f) REG_FRF_LSB =
      frfI.toNat &&& 255 := by
    simp only [setFrequency, ← hfrfI, hmod]
    rw [read_write_same]
    exact Nat.mod_eq_of_lt (hb _)
  have hget : getFrequency (setFrequency regs f) =
      ((frfI.toNat : ℚ)) * 32 / 524288 := by
    rw [getFrequency, hmsb, hmid, hlsb, recombine24 _ htlt]
  have hcast : ((frfI.toNat : ℚ)) = ((frfI : ℚ)) := by
    exact_mod_cast congrArg (fun z : Int => (z : ℚ)) htn
  refine ⟨by rw [hget, hcast], ?_, ?_⟩
  · rw [hget, hcast]
    have h1 : (frfI : ℚ) ≤ f * 524288 / 32 := Int.floor_le _
    rw [le_div_iff₀ (by norm_num : (0:ℚ) < 32)] at h1
    rw [sub_nonneg, div_le_iff₀ (by norm_num : (0:ℚ) < 524288)]
    linarith
  · rw [hget, hcast]
    have h2 : f * 524288 / 32 < (frfI : ℚ) + 1 := Int.lt_floor_add_one _
    rw [div_lt_iff₀ (by norm_num : (0:ℚ) < 32)] at h2
    rw [sub_lt_iff_lt_add, div_add_div_same,
      lt_div_iff₀ (by norm_num : (0:ℚ) < 524288)]
    linarith

/-- Witness for the C6 amended theorem at 868 MHz: the encoded word is
14221312 and decodes exactly back to 868. -/
theorem frequency_roundtrip_amended_witness :
    (0 : ℚ) ≤ 868 ∧ (868 : ℚ) < 1024 ∧
      (getFrequency (setFrequency (fun _ => 0) 868) =
          ((⌊(868 : ℚ) * 524288 / 32⌋ : ℚ)) * 32 / 524288
        ∧ 0 ≤ (868 : ℚ) - getFrequency (setFrequency (fun _ => 0) 868)
        ∧ (868 : ℚ) - getFrequency (setFrequency (fun _ => 0) 868)
            < 32 / 524288) :=
  ⟨by norm_num, by norm_num,
    frequency_roundtrip_amended (fun _ => 0) 868 (by norm_num) (by norm_num)⟩

/-- The fixed ascending bandwidth table of `RFM95::setBandwidth` (kHz). -/
def bws : List ℚ := [7.8, 10.4, 15.6, 20.8, 31.25, 41.7, 62.5, 125, 250, 500]

/-- Embeds the selection loop of `RFM95::setBandwidth`: scan the table from
index 0 and stop at the first entry at or above the request; if none
qualifies, the initial default 9 is kept. -/
def bwLoop (bw_khz : ℚ) : List ℚ → Nat → Nat
  | [], _ => 9
  | x :: rest, i => if bw_khz ≤ x then i else bwLoop bw_khz rest (i + 1)

/-- The 4-bit bandwidth index `bw_value` chosen by `RFM95::setBandwidth`. -/
def bw_value (bw_khz : ℚ) : Nat := bwLoop bw_khz bws 0

/-- Embeds `RFM95::setBandwidth`: read-modify-write of
`REG_MODEM_CONFIG_1`, placing the index in the high nibble and keeping the
low nibble. -/
def setBandwidth (regs : Regs) (bw_khz : ℚ) : Regs :=
  writeRegister regs REG_MODEM_CONFIG_1
    ((readRegister regs REG_MODEM_CONFIG_1 &&& 0x0F) ||| (bw_value bw_khz <<< 4))

/-- Characterization of the selection loop: either it stops at the first
table entry at or above the request (returning its index offset by the
start index), or no entry qualifies and the initial default 9 survives. -/
theorem bwLoop_cases (bw : ℚ) : ∀ (l : List ℚ) (i : Nat),
    (∃ j, j < l.length ∧ bwLoop bw l i = i + j ∧ bw ≤ l.getD j 0
       ∧ ∀ j', j' < j → ¬ bw ≤ l.getD j' 0)
    ∨ ((∀ x ∈ l, ¬ bw ≤ x) ∧ bwLoop bw l i = 9) := by
  intro l
  induction l with
  | nil => intro i; exact Or.inr ⟨by simp, rfl⟩
  | cons x rest ih =>
    intro i
    by_cases h : bw ≤ x
    · exact Or.inl ⟨0, by simp, by simp [bwLoop, h], by simpa using h,
        by omega⟩
    · rcases ih (i + 1) with ⟨j, hj, heq, hle, hmin⟩ | ⟨hall, heq⟩
      · refine Or.inl ⟨j + 1, by simpa using hj, ?_, by simpa using hle, ?_⟩
        · rw [show bwLoop bw (x :: rest) i
              = if bw ≤ x then i else bwLoop bw rest (i + 1) from rfl,
            if_neg h, heq]
          omega
        · intro j' hj'
          cases j' with
          | zero => simpa using h
          | succ j'' =>
            have := hmin j'' (by omega)
            simpa using this
      · refine Or.inr ⟨?_, ?_⟩
        · intro y hy
          rcases List.mem_cons.mp hy with hy | hy
          · rw [hy]; exact h
          · exact hall y hy
        · rw [show bwLoop bw (x :: rest) i
              = if bw ≤ x then i else bwLoop bw rest (i + 1) from rfl,
            if_neg h, heq]

theorem bws_length : bws.length = 10 := rfl

theorem bws_getD_le (j : Nat) (hj : j < 10) : bws.getD j 0 ≤ 500 := by
  interval_cases j <;> norm_num [bws]

theorem bw_value_le_nine (bw : ℚ) : bw_value bw ≤ 9 := by
  rcases bwLoop_cases bw bws 0 with ⟨j, hj, heq, _, _⟩ | ⟨_, heq⟩
  · rw [bws_length] at hj
    rw [bw_value, heq]
    omega
  · rw [bw_value, heq]

theorem nibble_facts :
    ∀ x : Nat, x < 16 → ∀ v : Nat, v ≤ 9 →
      (x ||| (v <<< 4)) % 256 &&& 0x0F = x
      ∧ ((x ||| (v <<< 4)) % 256) >>> 4 = v := by
  decide

/-- C7: `setBandwidth` selects the smallest index of the ascending table
whose value is at or above the request (the largest entry, index 9, when no
entry qualifies); requesting 100 kHz selects index 7 (125 kHz), 500 selects
9, and 600 defaults to 9; and the chosen index is stored in the high nibble
of `REG_MODEM_CONFIG_1` with the low nibble preserved and every other
register untouched. -/
theorem setBandwidth_spec :
    ∀ (regs : Regs) (bw : ℚ),
      (∀ i : Nat, i < 10 → bw ≤ bws.getD i 0 → bw_value bw ≤ i)
      ∧ (bw ≤ 500 → bw ≤ bws.getD (bw_value bw) 0)
      ∧ (500 < bw → bw_value bw = 9)
      ∧ bw_value 100 = 7 ∧ bw_value 500 = 9 ∧ bw_value 600 = 9
      ∧ setBandwidth regs bw REG_MODEM_CONFIG_1 &&& 0x0F
          = readRegister regs REG_MODEM_CONFIG_1 &&& 0x0F
      ∧ setBandwidth regs bw REG_MODEM_CONFIG_1 >>> 4 = bw_value bw
      ∧ (∀ a, a ≠ REG_MODEM_CONFIG_1 → setBandwidth regs bw a = regs a) := by
  intro regs bw
  have hx : readRegister regs REG_MODEM_CONFIG_1 &&& 0x0F < 16 := by
    have : readRegister regs REG_MODEM_CONFIG_1 &&& 0x0F ≤ 0x0F :=
      Nat.and_le_right
    omega
  have hnib := nibble_facts _ hx _ (bw_value_le_nine bw)
  refine ⟨?_, ?_, ?_, ?_, ?_, ?_, ?_, ?_, ?_⟩
  · intro i hi hle
    rcases bwLoop_cases bw bws 0 with ⟨j, _, heq, _, hmin⟩ | ⟨hall, heq⟩
    · rw [bw_value, heq]
      by_contra hc
      push_neg at hc
      exact hmin i (by omega) hle
    · have hmem : bws.getD i 0 ∈ bws := by
        rw [List.getD_eq_getElem _ _ (by rw [bws_length]; omega)]
        exact List.getElem_mem _
      exact absurd hle (hall _ hmem)
  · intro h500
    rcases bwLoop_cases bw bws 0 with ⟨j, _, heq, hle, _⟩ | ⟨_, heq⟩
    · rw [bw_value, heq]
      simpa using hle
    · rw [bw_value, heq]
      norm_num [bws]
      exact h500
  · intro h500
    rcases bwLoop_cases bw bws 0 with ⟨j, hj, heq, hle, _⟩ | ⟨_, heq⟩
    · rw [bws_length] at hj
      have := bws_getD_le j hj
      linarith
    · rw [bw_value, heq]
  · norm_num [bw_value, bws, bwLoop]
  · norm_num [bw_value, bws, bwLoop]
  · norm_num [bw_value, bws, bwLoop]
  · simp only [setBandwidth, writeRegister, if_pos]
    exact hnib.1
  · simp only [setBandwidth, writeRegister, if_pos]
    exact hnib.2
  · intro a ha
    simp [setBandwidth, writeRegister, ha]

/-- Witness for C7 at a concrete input: 100 kHz is at or below table entry
7 (125 kHz), and the selected index is at most 7. -/
theorem setBandwidth_spec_witness :
    ((7 : Nat) < 10 ∧ (100 : ℚ) ≤ bws.getD 7 0) ∧ bw_value 100 ≤ 7 :=
  ⟨⟨by norm_num, by norm_num [bws]⟩,
    (setBandwidth_spec (fun _ => 0) 100).1 7 (by norm_num) (by norm_num [bws])⟩

/-- Embeds `RFM95::setInvertIQ`: the two IQ registers are always written as
a pair, `0x66`/`0x19` for inverted and `0x27`/`0x1D` for normal. -/
def setInvertIQ (regs : Regs) (invert : Bool) : Regs :=
  if invert then
    writeRegister (writeRegister regs REG_INVERTIQ 0x66) REG_INVERTIQ2 0x19
  else
    writeRegister (writeRegister regs REG_INVERTIQ 0x27) REG_INVERTIQ2 0x1D

/-- Embeds `RFM95::setDIOMapping`: read-modify-write of the two DIO mapping
registers (upper two bits from the arguments), then unmask and clear the
IRQ flags. -/
def setDIOMapping (regs : Regs) (d3 d4 : Nat) : Regs :=
  let r1 := writeRegister regs REG_DIO_MAPPING_1
    ((readRegister regs REG_DIO_MAPPING_1 &&& 0x3F) ||| (d3 &&& 0xC0))
  let r2 := writeRegister r1 REG_DIO_MAPPING_2
    ((readRegister r1 REG_DIO_MAPPING_2 &&& 0x3F) ||| (d4 &&& 0xC0))
  writeRegister (writeRegister r2 REG_IRQ_FLAGS_MASK 0x00) REG_IRQ_FLAGS 0xFF

theorem write_apply_other (rs : Regs) (b v a : Nat) (h : a ≠ b) :
    writeRegister rs b v a = rs a := by
  simp [writeRegister, h]

end Reg

namespace Spi

/-- Embeds `RFM95::readRegister` over an abstract transport `transfer`
function (the `SPIInterface` contract): send the address with the write bit
cleared, request one byte; return the first response byte when the response
is non-empty and 0 otherwise. -/
def readRegister (tr : List Nat → Nat → List Nat) (address : Nat) : Nat :=
  match tr [address &&& 0x7F] 1 with
  | [] => 0
  | b :: _ => b

/-- Embeds `RFM95::writeRegister` over an abstract transport: send the
address with the write bit set and the value, requesting no bytes back.
The C++ function returns `void` and never inspects the transfer result. -/
def writeRegister (tr : List Nat → Nat → List Nat) (address value : Nat) :
    Unit :=
  let _ := tr [address ||| 0x80, value] 0
  ()

/-- C10: when the transport fails (empty response), `readRegister` returns
0, exactly the value it returns for a transport whose register genuinely
holds 0 — a failed read is indistinguishable from a register holding 0 —
and `writeRegister` discards the transfer result, so its observable result
is identical for any two transports, failing or not. -/
theorem register_primitives_mask_failures :
    ∀ (address value : Nat) (tFail tZero : List Nat → Nat → List Nat),
      (∀ w n, tFail w n = []) →
      (∀ w n, tZero w n = [0]) →
      readRegister tFail address = 0
      ∧ readRegister tZero address = 0
      ∧ ∀ t₁ t₂ : List Nat → Nat → List Nat,
          writeRegister t₁ address value = writeRegister t₂ address value := by
  intro a v tF tZ hF hZ
  refine ⟨?_, ?_, fun _ _ => rfl⟩
  · simp [readRegister, hF]
  · simp [readRegister, hZ]

/-- Witness for C10 at a concrete input: a transport that always fails
makes `readRegister` of the sync-word register return 0. -/
theorem register_primitives_mask_failures_witness :
    readRegister (fun _ _ => []) 0x39 = 0 :=
  (register_primitives_mask_failures 0x39 5 (fun _ _ => []) (fun _ _ => [0])
    (fun _ _ => rfl) (fun _ _ => rfl)).1

end Spi

namespace Boot

/-- A transport behaviour seen by `RFM95::begin`: whether `open()` succeeds,
the response bytes of the k-th `transfer` call, and a ghost flag recording
whether the k-th call's underlying bulk operations all succeeded (the C++
cannot observe it; a failed call responds with the empty sequence). -/
structure Behavior where
  openOk : Bool
  resp : Nat → List Nat
  stepOk : Nat → Bool

/-- A transfer call: the written bytes and the requested read length. -/
abbrev Call := List Nat × Nat

/-- First response byte, 0 when the response is empty — the value
`RFM95::readRegister` and `readVersionRegister` extract. -/
def headD0 : List Nat → Nat
  | [] => 0
  | b :: _ => b

/-- The call a register read issues (address with write bit cleared, one
byte requested). -/
def rdCall (a : Nat) : Call := ([a &&& 0x7F], 1)

/-- The call a register write issues (address with write bit set, the
value, nothing requested). -/
def wrCall (a v : Nat) : Call := ([a ||| 0x80, v], 0)

/-- Embeds `RFM95::begin` over a transport behaviour, returning the list of
transfer calls it makes and its boolean result.  Call 0/1 are `sleepMode`'s
read-modify-write of `REG_OP_MODE`; call 2 is `readVersionRegister`
(`transfer({0x42}, 1)`); a version byte other than 0x12 aborts with
`false`; otherwise the fixed initialization writes follow (LoRa mode, FIFO
base addresses, modem config, PA config, LNA, FIFO pointer, standby) and
`begin` returns `true` without inspecting any of their results. -/
def beginTrace (b : Behavior) : List Call × Bool :=
  if b.openOk = false then ([], false)
  else
    let c0 := rdCall REG_OP_MODE
    let c1 := wrCall REG_OP_MODE ((headD0 (b.resp 0) &&& 0xF8) ||| MODE_SLEEP)
    let c2 : Call := ([0x42], 1)
    if headD0 (b.resp 2) ≠ 0x12 then ([c0, c1, c2], false)
    else
      ([c0, c1, c2,
        wrCall REG_OP_MODE 0x80,
        wrCall REG_FIFO_TX_BASE_ADDR 0,
        wrCall REG_FIFO_RX_BASE_ADDR 0,
        wrCall REG_MODEM_CONFIG_1 0x72,
        wrCall REG_MODEM_CONFIG_2 0x70,
        wrCall REG_MODEM_CONFIG_3 0x04,
        wrCall REG_PA_CONFIG 0x8F,
        wrCall REG_PA_DAC 0x87,
        wrCall REG_LNA 0x23,
        wrCall REG_FIFO_ADDR_PTR 0,
        wrCall REG_OP_MODE MODE_STDBY], true)

/-- The behaviour refuting C3: `open()` succeeds and the version read (call
2) succeeds with 0x12, but every other transfer call fails (empty
response, ghost flag false) — including all ten initialization register
writes. -/
def cxBehavior : Behavior where
  openOk := true
  resp := fun k => if k = 2 then [0x12] else []
  stepOk := fun k => k == 2

/-- C3 (counterexample): under `cxBehavior` every initialization write
fails (for instance calls 0 and 3 of the 14-call trace), yet `begin`
returns `true` — an initialization in which register writes failed is
reported as success, contradicting the claim. -/
theorem begin_ignores_write_failures_cx :
    (beginTrace cxBehavior).2 = true
    ∧ (beginTrace cxBehavior).1.length = 14
    ∧ cxBehavior.stepOk 0 = false
    ∧ cxBehavior.stepOk 3 = false := by
  refine ⟨rfl, rfl, rfl, rfl⟩

/-- C3 (amended): `begin` returns `false` exactly when `open()` fails or
the version byte read back differs from 0x12 (a failed version read yields
0, hence also `false`); transport failures in `sleepMode`'s register access
and in the ten subsequent initialization register writes do not affect the
result at all. -/
theorem begin_result_characterization :
    ∀ b : Behavior,
      (beginTrace b).2 = (b.openOk && (headD0 (b.resp 2) == 0x12)) := by
  intro b
  rcases b with ⟨o, resp, ok⟩
  cases o
  · simp [beginTrace]
  · by_cases hv : headD0 (resp 2) = 0x12
    · simp [beginTrace, hv]
    · simp [beginTrace, hv]

end Boot

namespace Rx

/-- What one poll iteration of `RFM95::receive` observes from the hardware:
the `REG_IRQ_FLAGS` byte, the `REG_RX_NB_BYTES` byte, the
`REG_FIFO_RX_CURRENT_ADDR` byte, and the FIFO bytes streamed out if the
packet is read. -/
structure Poll where
  flags : Nat
  nbBytes : Nat
  rxAddr : Nat
  fifo : Nat → Nat

/-- A hardware behaviour: what the k-th poll iteration observes. -/
abbrev Polls := Nat → Poll

/-- Embeds the polling loop of `RFM95::receive(timeout, invert_iq)`.
`T` is the timeout in milliseconds (`timeout * 1000` of the C++), `now` the
number of 1 ms sleeps executed so far, `k` the poll index, and `gas` a
structural bound on the number of simulated iterations (the C++ loop has
none: on the CRC-error `continue` path the timeout check and the sleep are
skipped, so a hardware that reports receive-done with CRC error forever
keeps the C++ loop running; exhausting `gas` returns the empty vector).
Mirrors the source: a poll with nonzero flags containing receive-done and
CRC-error clears the flags and continues without checking the timeout; a
clean receive-done with a positive byte count returns exactly that many
FIFO bytes; everything else falls through to the timeout check, which
returns the empty vector once `now` exceeds `T`. -/
def receiveAux (polls : Polls) (T : Nat) : Nat → Nat → Nat → List Nat
  | 0, _, _ => []
  | gas + 1, now, k =>
    if (polls k).flags ≠ 0 then
      if (polls k).flags &&& IRQ_RX_DONE_MASK ≠ 0 then
        if (polls k).flags &&& IRQ_PAYLOAD_CRC_ERROR_MASK ≠ 0 then
          receiveAux polls T gas now (k + 1)
        else if (polls k).nbBytes > 0 then
          (List.range (polls k).nbBytes).map (polls k).fifo
        else if now > T then []
        else receiveAux polls T gas (now + 1) (k + 1)
      else if now > T then []
      else receiveAux polls T gas (now + 1) (k + 1)
    else if now > T then []
    else receiveAux polls T gas (now + 1) (k + 1)

/-- `RFM95::receive` from the start of its polling loop. -/
def receive (polls : Polls) (T gas : Nat) : List Nat :=
  receiveAux polls T gas 0 0

/-- A transport that never signals receive-done. -/
def pollsTimeout : Polls := fun _ => ⟨0, 0, 0, fun _ => 0⟩

/-- A transport that always signals a clean receive-done carrying a
zero-length packet. -/
def pollsZeroLen : Polls := fun _ => ⟨0x40, 0, 0, fun _ => 0⟩

set_option maxRecDepth 4000 in
/-- C2 (counterexample): with a 0.1 s timeout (T = 100 ms), a transport
that successfully receives only zero-length packets produces exactly the
same public return value — the empty vector — as a transport that never
signals receive-done and times out.  The two outcomes are not
distinguishable in the return value, contradicting the claim. -/
theorem receive_timeout_indistinguishable_cx :
    receive pollsZeroLen 100 200 = receive pollsTimeout 100 200
    ∧ receive pollsTimeout 100 200 = ([] : List Nat) := by
  constructor <;> decide

/-- C2 (amended): `receive` returns the empty vector whenever no poll
offers a non-empty packet: both a pure timeout and a window containing
only zero-length receptions yield the empty vector, so the empty result
means "no non-empty clean packet within the timeout" and a timeout cannot
be told apart from a received zero-length packet. -/
theorem receive_empty_without_payload :
    ∀ (polls : Polls) (T gas now k : Nat),
      (∀ j, (polls j).nbBytes = 0) → receiveAux polls T gas now k = [] := by
  intro polls T gas
  induction gas with
  | zero => intro now k _; rfl
  | succ gas ih =>
    intro now k h
    rw [receiveAux]
    by_cases h1 : (polls k).flags ≠ 0
    · rw [if_pos h1]
      by_cases h2 : (polls k).flags &&& IRQ_RX_DONE_MASK ≠ 0
      · rw [if_pos h2]
        by_cases h3 : (polls k).flags &&& IRQ_PAYLOAD_CRC_ERROR_MASK ≠ 0
        · rw [if_pos h3]
          exact ih now (k + 1) h
        · rw [if_neg h3, if_neg (by rw [h k]; omega)]
          by_cases h5 : now > T
          · rw [if_pos h5]
          · rw [if_neg h5]
            exact ih (now + 1) (k + 1) h
      · rw [if_neg h2]
        by_cases h5 : now > T
        · rw [if_pos h5]
        · rw [if_neg h5]
          exact ih (now + 1) (k + 1) h
    · rw [if_neg h1]
      by_cases h5 : now > T
      · rw [if_pos h5]
      · rw [if_neg h5]
        exact ih (now + 1) (k + 1) h

/-- Witness for the C2 amended theorem at a concrete input: the
never-receive transport with every byte count zero yields the empty
vector. -/
theorem receive_empty_without_payload_witness :
    receiveAux pollsTimeout 2 5 0 0 = [] :=
  receive_empty_without_payload pollsTimeout 2 5 0 0 (fun _ => rfl)

/-- The C8 scenario: poll 0 reports receive-done together with the
CRC-error flag (0x60); every later poll reports a clean receive-done
(0x40) of a 2-byte packet whose FIFO bytes are 5 and 7. -/
def pollsCrcThenClean : Polls := fun k =>
  if k = 0 then ⟨0x60, 2, 0, fun _ => 0⟩
  else ⟨0x40, 2, 0, fun i => if i = 0 then 5 else 7⟩

/-- C8: a poll observing receive-done together with the CRC-error flag
clears the flags and continues with the next poll instead of returning
(the loop state is unchanged but for the poll index); consequently, in the
concrete scenario whose first reception is CRC-garbled and whose second is
clean and non-empty, `receive` returns the clean packet `[5, 7]` rather
than a failure. -/
theorem receive_crc_retry :
    ∀ (polls : Polls) (T gas now k : Nat),
      ((polls k).flags &&& IRQ_RX_DONE_MASK ≠ 0
          ∧ (polls k).flags &&& IRQ_PAYLOAD_CRC_ERROR_MASK ≠ 0 →
        receiveAux polls T (gas + 1) now k = receiveAux polls T gas now (k + 1))
      ∧ receive pollsCrcThenClean 5000 100 = [5, 7] := by
  intro polls T gas now k
  constructor
  · rintro ⟨h1, h2⟩
    have hne : (polls k).flags ≠ 0 := by
      intro h0
      rw [h0] at h1
      simp [Nat.zero_and] at h1
    rw [receiveAux, if_pos hne, if_pos h1, if_pos h2]
  · rfl

/-- Witness for C8 at a concrete input: the CRC-garbled first poll of the
scenario makes the loop continue to poll 1 with the same elapsed time. -/
theorem receive_crc_retry_witness :
    receiveAux pollsCrcThenClean 5000 1 0 0
      = receiveAux pollsCrcThenClean 5000 0 0 1 :=
  (receive_crc_retry pollsCrcThenClean 5000 0 0 0).1 (by decide)

end Rx

namespace Tx

/-- Embeds the transmit-done wait loop of `RFM95::send`.  `flagsAt k` is
the `REG_IRQ_FLAGS` byte the hardware reports at the k-th poll, `now` the
number of executed 1 ms sleeps (the timeout fires strictly after 2000 ms),
`regs` the register file at loop entry (constant during the loop), and
`gas` a structural bound on the simulated iterations.  On transmit-done the
flags are cleared, standby entered, and the IQ mode restored when it was
inverted; on timeout only the IQ restore happens; the result is the
returned boolean together with the register file. -/
def sendLoop (invert : Bool) (flagsAt : Nat → Nat) (regs : Reg.Regs) :
    Nat → Nat → Nat → Bool × Reg.Regs
  | 0, _, _ => (false, regs)
  | gas + 1, now, k =>
    if flagsAt k &&& IRQ_TX_DONE_MASK ≠ 0 then
      (true,
        let r1 := Reg.writeRegister regs REG_IRQ_FLAGS 0xFF
        let r2 := Reg.writeRegister r1 REG_OP_MODE MODE_STDBY
        if invert then Reg.setInvertIQ r2 false else r2)
    else if now > 2000 then
      (false, if invert then Reg.setInvertIQ regs false else regs)
    else
      sendLoop invert flagsAt regs gas (now + 1) (k + 1)

/-- Embeds everything `RFM95::send` does before its wait loop: configure
the IQ mode, map DIO3/DIO4, enter standby, configure DIO3 for TxDone,
clear IRQ flags, reset the FIFO pointer, stream the payload into the FIFO,
set the payload length, and switch to transmit mode. -/
def sendSetup (regs : Reg.Regs) (data : List Nat) (invert_iq : Bool) :
    Reg.Regs :=
  let r1 := Reg.setInvertIQ regs invert_iq
  let r2 := Reg.setDIOMapping r1 0x40 0x40
  let r3 := Reg.writeRegister r2 REG_OP_MODE MODE_STDBY
  let r4 := Reg.writeRegister r3 REG_DIO_MAPPING_1
    ((Reg.readRegister r3 REG_DIO_MAPPING_1 &&& 0x3F) ||| 0x40)
  let r5 := Reg.writeRegister r4 REG_IRQ_FLAGS 0xFF
  let r6 := Reg.writeRegister r5 REG_FIFO_ADDR_PTR 0
  let r7 := data.foldl (fun rs byte => Reg.writeRegister rs REG_FIFO byte) r6
  let r8 := Reg.writeRegister r7 REG_PAYLOAD_LENGTH data.length
  Reg.writeRegister r8 REG_OP_MODE MODE_TX

/-- Embeds `RFM95::send(data, invert_iq)`: an over-long payload returns
`false` immediately, before any register is touched; otherwise the setup
writes run and the wait loop decides the outcome. -/
def send (regs : Reg.Regs) (data : List Nat) (invert_iq : Bool)
    (flagsAt : Nat → Nat) (gas : Nat) : Bool × Reg.Regs :=
  if data.length > 255 then (false, regs)
  else sendLoop invert_iq flagsAt (sendSetup regs data invert_iq) gas 0 0

theorem foldl_fifo_apply_other :
    ∀ (l : List Nat) (rs : Reg.Regs) (a : Nat), a ≠ REG_FIFO →
      (l.foldl (fun rs byte => Reg.writeRegister rs REG_FIFO byte) rs) a
        = rs a := by
  intro l
  induction l with
  | nil => intro rs a _; rfl
  | cons x xs ih =>
    intro rs a h
    rw [List.foldl_cons, ih _ _ h, Reg.write_apply_other _ _ _ _ h]

theorem sendSetup_iq (regs : Reg.Regs) (data : List Nat) (invert : Bool) :
    sendSetup regs data invert REG_INVERTIQ = (if invert then 0x66 else 0x27)
    ∧ sendSetup regs data invert REG_INVERTIQ2
        = (if invert then 0x19 else 0x1D) := by
  constructor <;>
    (simp only [sendSetup, Reg.setDIOMapping]
     repeat rw [Reg.write_apply_other _ _ _ _ (by decide)]
     rw [foldl_fifo_apply_other _ _ _ (by decide)]
     repeat rw [Reg.write_apply_other _ _ _ _ (by decide)]
     cases invert <;>
       simp [Reg.setInvertIQ, Reg.writeRegister, REG_INVERTIQ, REG_INVERTIQ2])

theorem sendLoop_iq (invert : Bool) (flagsAt : Nat → Nat) (regs : Reg.Regs) :
    ∀ (gas now k : Nat), 2002 ≤ now + gas → now ≤ 2001 →
      regs REG_INVERTIQ = (if invert then 0x66 else 0x27) →
      regs REG_INVERTIQ2 = (if invert then 0x19 else 0x1D) →
      (sendLoop invert flagsAt regs gas now k).2 REG_INVERTIQ = 0x27
      ∧ (sendLoop invert flagsAt regs gas now k).2 REG_INVERTIQ2 = 0x1D := by
  intro gas
  induction gas with
  | zero => intro now k hsum hnow _ _; omega
  | succ gas ih =>
    intro now k hsum hnow hiq hiq2
    rw [sendLoop]
    by_cases hdone : flagsAt k &&& IRQ_TX_DONE_MASK ≠ 0
    · rw [if_pos hdone]
      cases invert <;>
        simp_all [Reg.setInvertIQ, Reg.writeRegister, REG_INVERTIQ,
          REG_INVERTIQ2, REG_IRQ_FLAGS, REG_OP_MODE]
    · rw [if_neg hdone]
      by_cases htime : now > 2000
      · rw [if_pos htime]
        cases invert <;>
          simp_all [Reg.setInvertIQ, Reg.writeRegister, REG_INVERTIQ,
            REG_INVERTIQ2]
      · rw [if_neg htime]
        exact ih (now + 1) (k + 1) (by omega) (by omega) hiq hiq2

/-- A register file in which the IQ registers hold the inverted-mode
constants before `send` is called. -/
def invertedRegs : Reg.Regs := fun a =>
  if a = REG_INVERTIQ then 0x66 else if a = REG_INVERTIQ2 then 0x19 else 0

set_option maxRecDepth 8000 in
/-- C9 (counterexample): `send` with a 256-byte payload returns through the
over-length early return without writing any register, so with the IQ
registers holding the inverted constants beforehand they still hold
`0x66`/`0x19` — not the non-inverted pair `0x27`/`0x1D` — when `send`
returns, contradicting the claim that every return path leaves them
non-inverted. -/
theorem send_oversize_skips_iq_restore_cx :
    (send invertedRegs (List.replicate 256 0) false (fun _ => 0x08) 2002).1
        = false
    ∧ (send invertedRegs (List.replicate 256 0) false (fun _ => 0x08)
        2002).2 REG_INVERTIQ = 0x66
    ∧ (send invertedRegs (List.replicate 256 0) false (fun _ => 0x08)
        2002).2 REG_INVERTIQ ≠ 0x27 := by
  refine ⟨?_, ?_, ?_⟩ <;> decide

/-- C9 (amended): on every return path of `send` other than the over-length
early return — transmit-done success and timeout alike, with or without
`invert_iq`, from any prior register state — the IQ registers hold the
non-inverted constants `0x27`/`0x1D` when `send` returns.  The over-length
early return (payload longer than 255 bytes) leaves them untouched. -/
theorem send_restores_iq_amended :
    ∀ (regs : Reg.Regs) (data : List Nat) (invert : Bool)
      (flagsAt : Nat → Nat) (gas : Nat),
      data.length ≤ 255 → 2002 ≤ gas →
      (send regs data invert flagsAt gas).2 REG_INVERTIQ = 0x27
      ∧ (send regs data invert flagsAt gas).2 REG_INVERTIQ2 = 0x1D := by
  intro regs data invert flagsAt gas hlen hgas
  rw [send, if_neg (by omega)]
  exact sendLoop_iq invert flagsAt _ gas 0 0 (by omega) (by omega)
    (sendSetup_iq regs data invert).1 (sendSetup_iq regs data invert).2

/-- Witness for the C9 amended theorem at a concrete input: a one-byte
inverted-IQ send whose hardware signals transmit-done at the first poll
leaves the IQ registers at the non-inverted constants. -/
theorem send_restores_iq_amended_witness :
    ([1].length ≤ 255 ∧ 2002 ≤ 2002)
    ∧ ((send (fun _ => 0) [1] true (fun _ => 0x08) 2002).2 REG_INVERTIQ = 0x27
        ∧ (send (fun _ => 0) [1] true (fun _ => 0x08) 2002).2 REG_INVERTIQ2
            = 0x1D) :=
  ⟨⟨by decide, by decide⟩,
    send_restores_iq_amended (fun _ => 0) [1] true (fun _ => 0x08) 2002
      (by decide) (by decide)⟩

end Tx

end RFM95
